import Mathlib

/-!
Verification of the CharonGamble frame-simulation and economy engine.

The definitions below are a shallow embedding of the TypeScript source:
Game.applyGate, Game.effectMultiplier, the obstacle branch of
Game.handleCollisions, the gate-choice branch of Game.handleCollisions,
Game.currentDrainRate, Game.fireBribe, the reward-x2 game-over handler,
the platform onPause and onResume handlers, the shield bookkeeping of
Game.update, Game.applyMetaUpgradesForRun, Game.reset, and
SaveService.load.  JavaScript numbers are modelled as rationals, and
score-like integer-valued quantities as integers.
-/

set_option linter.unusedVariables false

/-- Keys of the gate effect bundle (interface GateEffect in the config
types). -/
inductive EffectKey
  | collisionPenaltyMultiplier
  | pickupMultiplier
  | speedMultiplier
  | drainMultiplier
deriving DecidableEq

/-- Gate effect bundle (interface GateEffect): four optional numeric
multipliers.  An entry that is absent, or present but non-numeric at
runtime, is modelled as none (Game.effectMultiplier skips exactly the
entries whose typeof is not number). -/
structure GateEffect where
  collisionPenaltyMultiplier : Option ℚ := none
  pickupMultiplier : Option ℚ := none
  speedMultiplier : Option ℚ := none
  drainMultiplier : Option ℚ := none
deriving DecidableEq

/-- Field lookup of a GateEffect by key. -/
def GateEffect.get (e : GateEffect) : EffectKey → Option ℚ
  | .collisionPenaltyMultiplier => e.collisionPenaltyMultiplier
  | .pickupMultiplier => e.pickupMultiplier
  | .speedMultiplier => e.speedMultiplier
  | .drainMultiplier => e.drainMultiplier

/-- interface ActiveEffect of the Game module. -/
structure ActiveEffect where
  gateId : String
  effect : GateEffect
  permanent : Bool
  remainingSec : ℚ
deriving DecidableEq

/-- interface DrainTier of the config types. -/
structure DrainTier where
  fromSec : ℚ
  rate : ℚ
deriving DecidableEq

/-- interface EconomyConfig (the fields the embedded operations read). -/
structure EconomyConfig where
  startCoins : ℚ
  coinDrainTiers : List DrainTier
  pickupValue : ℚ
  collisionPenalty : ℚ
  bribeShotCost : ℚ
  freeBribeChance : ℚ
  gateIntervalSec : ℚ
  gateDurationSec : ℚ
deriving DecidableEq

/-- interface GateConfig.  The optional TypeScript field permanent is
modelled as Bool, matching the Boolean(gate.permanent) coercion at the
single place the source stores it. -/
structure GateConfig where
  id : String
  name : String
  description : String
  durationSec : ℚ
  permanent : Bool
  effects : GateEffect
deriving DecidableEq

/-- Game.effectMultiplier: reduce over the active-effect list with
initial accumulator 1, multiplying in the value stored for the key and
skipping entries that are not numeric. -/
def effectMultiplier (effects : List ActiveEffect) (key : EffectKey) : ℚ :=
  effects.foldl
    (fun acc e =>
      match e.effect.get key with
      | some v => acc * v
      | none => acc)
    1

/-- Game.applyGate.  Returns the new effect list together with a flag
that is true exactly when the gate was rejected with the
already-applied toast.  The duration of the pushed effect is 0 for a
permanent gate and otherwise gate.durationSec, falling back to
economy.gateDurationSec when durationSec is falsy (0). -/
def applyGate (economy : EconomyConfig) (effects : List ActiveEffect)
    (gate : GateConfig) : List ActiveEffect × Bool :=
  if gate.permanent && (gate.id == "DEBT")
      && effects.any (fun e => e.permanent && (e.gateId == "DEBT")) then
    (effects, true)
  else
    let duration : ℚ :=
      if gate.permanent then 0
      else if gate.durationSec == 0 then economy.gateDurationSec
      else gate.durationSec
    (effects ++ [⟨gate.id, gate.effects, gate.permanent, duration⟩], false)

/-- Stable insertion of a tier into a list sorted ascending by fromSec;
together with sortTiers this models the ascending sort performed by
Game.currentDrainRate on a copy of economy.coinDrainTiers. -/
def insertTier (x : DrainTier) : List DrainTier → List DrainTier
  | [] => [x]
  | y :: ys => if x.fromSec ≤ y.fromSec then x :: y :: ys else y :: insertTier x ys

/-- Ascending sort of the drain tiers by fromSec. -/
def sortTiers : List DrainTier → List DrainTier
  | [] => []
  | x :: xs => insertTier x (sortTiers xs)

/-- Game.currentDrainRate: sort the tiers ascending by fromSec, start
from the first rate (0 when the list is empty) and keep overwriting the
current rate with the rate of every tier whose threshold has been
reached. -/
def currentDrainRate (tiers : List DrainTier) (elapsedSec : ℚ) : ℚ :=
  let sorted := sortTiers tiers
  let init : ℚ := ((sorted.head?).map DrainTier.rate).getD 0
  sorted.foldl
    (fun current tier => if elapsedSec ≥ tier.fromSec then tier.rate else current)
    init

/-- A collision circle: position plus radius. -/
structure BodyCircle where
  x : ℚ
  y : ℚ
  r : ℚ
deriving DecidableEq

/-- The intersects helper of the Game module. -/
def intersects (a b : BodyCircle) : Bool :=
  decide ((a.x - b.x) * (a.x - b.x) + (a.y - b.y) * (a.y - b.y)
    ≤ (a.r + b.r) * (a.r + b.r))

/-- interface ObstacleEntity (the color tag is irrelevant to the
embedded logic and omitted). -/
structure ObstacleEntity where
  x : ℚ
  y : ℚ
  r : ℚ
  damage : ℚ
deriving DecidableEq

/-- Collision circle of an obstacle entity. -/
def ObstacleEntity.body (ob : ObstacleEntity) : BodyCircle := ⟨ob.x, ob.y, ob.r⟩

/-- The per-run mutable fields of Game that the obstacle-impact and
shield logic reads and writes. -/
structure RunState where
  reviveInvulnMs : ℚ
  shieldMax : ℤ
  shieldCount : ℤ
  shieldRegenSec : ℚ
  shieldRegenTimer : ℚ
  coinsBalance : ℚ
deriving DecidableEq

/-- The obstacle-impact branch of Game.handleCollisions, executed for
one intersecting obstacle: while the revive invulnerability is
inactive, a positive shield count absorbs the hit (one charge is
consumed and the regen timer is reset), otherwise the balance loses
collisionPenalty * damage * collision-penalty effect multiplier *
obstacleDamageMult. -/
def resolveObstacleImpact (economy : EconomyConfig)
    (effects : List ActiveEffect) (obstacleDamageMult : ℚ)
    (s : RunState) (damage : ℚ) : RunState :=
  if s.reviveInvulnMs ≤ 0 then
    if 0 < s.shieldCount then
      { s with shieldCount := s.shieldCount - 1,
               shieldRegenTimer := s.shieldRegenSec }
    else
      { s with coinsBalance := s.coinsBalance
          - economy.collisionPenalty * damage
            * effectMultiplier effects EffectKey.collisionPenaltyMultiplier
            * obstacleDamageMult }
  else s

/-- The obstacle filter of Game.handleCollisions: obstacles are
traversed in order; a non-intersecting obstacle is kept, an
intersecting one updates the run state through resolveObstacleImpact
and is dropped from the list. -/
def handleObstacles (boatBody : BodyCircle) (economy : EconomyConfig)
    (effects : List ActiveEffect) (obstacleDamageMult : ℚ)
    (s : RunState) (obstacles : List ObstacleEntity) :
    RunState × List ObstacleEntity :=
  obstacles.foldl
    (fun acc ob =>
      if intersects boatBody ob.body then
        (resolveObstacleImpact economy effects obstacleDamageMult acc.1 ob.damage,
         acc.2)
      else
        (acc.1, acc.2 ++ [ob]))
    (s, [])

/-- Logical lane width (const WIDTH). -/
def laneWidth : ℚ := 900

/-- Horizontal half-gap between the two gate zones (const GATE_GAP). -/
def gateGap : ℚ := 120

/-- Vertical tolerance of gate resolution (const GATE_HEIGHT). -/
def gateHeight : ℚ := 26

/-- interface GatePair of the Game module. -/
structure GatePair where
  y : ℚ
  left : GateConfig
  right : GateConfig
  width : ℚ
  chosen : Bool
deriving DecidableEq

/-- Left edge of the left gate zone, from Game.gateRects. -/
def gateLeftX (g : GatePair) : ℚ := laneWidth / 2 - gateGap - g.width

/-- Left edge of the right gate zone, from Game.gateRects. -/
def gateRightX (g : GatePair) : ℚ := laneWidth / 2 + gateGap

/-- The boolean inLeftRect computed by the gate branch of
Game.handleCollisions. -/
def inLeftRect (px : ℚ) (g : GatePair) : Bool :=
  decide (gateLeftX g ≤ px) && decide (px ≤ gateLeftX g + g.width)

/-- The boolean inRightRect computed by the gate branch of
Game.handleCollisions. -/
def inRightRect (px : ℚ) (g : GatePair) : Bool :=
  decide (gateRightX g ≤ px) && decide (px ≤ gateRightX g + g.width)

/-- The gate branch of Game.handleCollisions for one gate pair: a
chosen pair, or one outside the vertical tolerance, is left untouched
and applies nothing; otherwise the pair is marked chosen and the
applied option is the one of the zone containing the boat x, falling
back to the option whose zone center is nearer (left on an exact tie,
because the source compares distanceLeft <= distanceRight). -/
def resolveGatePair (px py : ℚ) (g : GatePair) : GatePair × Option GateConfig :=
  if g.chosen then (g, none)
  else if gateHeight < |g.y - py| then (g, none)
  else
    let leftCenter := gateLeftX g + g.width / 2
    let rightCenter := gateRightX g + g.width / 2
    if inLeftRect px g then ({ g with chosen := true }, some g.left)
    else if inRightRect px g then ({ g with chosen := true }, some g.right)
    else
      let distanceLeft := |px - leftCenter|
      let distanceRight := |px - rightCenter|
      ({ g with chosen := true },
       some (if distanceLeft ≤ distanceRight then g.left else g.right))

/-- The game-over fields that the reward-x2 handler of Game.bindEvents
reads and writes. -/
structure GameOverState where
  gameOver : Bool
  gameOverBaseScore : ℤ
  gameOverScoreMultiplier : ℤ
  sessionEarningsBase : ℚ
  bestScore : ℤ
  walletCoins : ℚ
deriving DecidableEq

/-- The reward-x2 click handler of Game.bindEvents.  rewarded is the
result of platform.showRewarded.  The handler returns early when the
run is not over, when the multiplier is already 2, or when the ad was
not rewarded; otherwise it sets the multiplier to 2, raises the best
score to the boosted score when that is larger, and credits the base
session earnings to the wallet when they are positive. -/
def rewardX2 (rewarded : Bool) (s : GameOverState) : GameOverState :=
  if !s.gameOver || (s.gameOverScoreMultiplier == 2) then s
  else if !rewarded then s
  else
    let s1 := { s with gameOverScoreMultiplier := 2 }
    let boostedScore := s1.gameOverBaseScore * s1.gameOverScoreMultiplier
    let s2 :=
      if s1.bestScore < boostedScore then { s1 with bestScore := boostedScore }
      else s1
    if 0 < s2.sessionEarningsBase then
      { s2 with walletCoins := s2.walletCoins + s2.sessionEarningsBase }
    else s2

/-- interface ProjectileEntity of the Game module. -/
structure ProjectileEntity where
  x : ℚ
  y : ℚ
  r : ℚ
  speed : ℚ
deriving DecidableEq

/-- Base cooldown of the bribe shot (const BASE_BRIBE_COOLDOWN_SEC). -/
def baseBribeCooldownSec : ℚ := 45 / 100

/-- The Game fields that Game.fireBribe reads and writes. -/
structure BribeState where
  paused : Bool
  gameOver : Bool
  runActive : Bool
  bribeCooldownLeftSec : ℚ
  coinsBalance : ℚ
  freeBribeReady : Bool
  freeBribeTimerSec : ℚ
  freeBribeEverySec : ℚ
  bribeCooldownMult : ℚ
  playerX : ℚ
  playerY : ℚ
  projectiles : List ProjectileEntity
deriving DecidableEq

/-- Game.fireBribe.  randomRoll stands for the comparison of
Math.random() against economy.freeBribeChance.  The shot is rejected
while paused, after game over, outside a run, during cooldown, or when
a paid shot cannot be afforded; a timer-triggered free shot clears the
ready flag and restarts the periodic timer; a paid shot deducts the
cost; every fired shot restarts the cooldown and pushes a projectile. -/
def fireBribe (economy : EconomyConfig) (randomRoll : Bool)
    (s : BribeState) : BribeState :=
  if s.paused || s.gameOver || !s.runActive then s
  else if 0 < s.bribeCooldownLeftSec then s
  else
    let randomFreeShot := randomRoll
    let timerFreeShot := s.freeBribeReady
    let freeShot := randomFreeShot || timerFreeShot
    if !freeShot && decide (s.coinsBalance < economy.bribeShotCost) then s
    else
      let s1 :=
        if timerFreeShot then
          { s with freeBribeReady := false,
                   freeBribeTimerSec := s.freeBribeEverySec }
        else s
      let s2 :=
        if !freeShot then
          { s1 with coinsBalance := s1.coinsBalance - economy.bribeShotCost }
        else s1
      let s3 := { s2 with
        bribeCooldownLeftSec := baseBribeCooldownSec * s2.bribeCooldownMult }
      { s3 with projectiles :=
          s3.projectiles ++ [⟨s3.playerX, s3.playerY - 20, 8, 450⟩] }

/-- The Game fields involved in the pause bookkeeping shared by the
pause button, the platform onPause handler and the platform onResume
handler of Game.bindEvents. -/
structure PauseState where
  paused : Bool
  manualPaused : Bool
  pausedByUser : Bool
  muted : Bool
  gameOver : Bool
  runActive : Bool
  platformPauseDepth : ℤ
  wasPausedBeforePlatformPause : Bool
  wasMutedBeforePlatformPause : Bool
deriving DecidableEq

/-- The platform onPause handler of Game.bindEvents: the pre-pause
paused and muted flags are snapshotted only at depth 0, the depth is
incremented, and the game is paused and muted. -/
def platformPause (s : PauseState) : PauseState :=
  let s1 :=
    if s.platformPauseDepth == 0 then
      { s with wasPausedBeforePlatformPause := s.paused,
               wasMutedBeforePlatformPause := s.muted }
    else s
  { s1 with platformPauseDepth := s1.platformPauseDepth + 1,
            paused := true,
            pausedByUser := false,
            muted := true }

/-- The platform onResume handler of Game.bindEvents: a resume at
non-positive depth is ignored; a resume that leaves the depth positive
only decrements it; the last resume restores the snapshotted muted flag
and stays paused exactly when the run is over, the user paused
manually, or the game was already paused before the platform pause. -/
def platformResume (s : PauseState) : PauseState :=
  if s.platformPauseDepth ≤ 0 then s
  else
    let s1 := { s with platformPauseDepth := s.platformPauseDepth - 1 }
    if 0 < s1.platformPauseDepth then s1
    else
      let shouldStayPaused :=
        s1.gameOver || s1.manualPaused || s1.wasPausedBeforePlatformPause
      { s1 with paused := shouldStayPaused,
                muted := s1.wasMutedBeforePlatformPause }

/-- The pause-button click handler of Game.bindEvents: ignored after
game over or outside a run, otherwise it toggles the paused flag and
records whether the pause is manual. -/
def userPauseToggle (s : PauseState) : PauseState :=
  if s.gameOver || !s.runActive then s
  else if s.paused then
    { s with paused := false, manualPaused := false, pausedByUser := false }
  else
    { s with paused := true, manualPaused := true, pausedByUser := true }

/-- A JSON value, used to model the persisted save payload. -/
inductive Json
  | null
  | bool (b : Bool)
  | num (q : ℚ)
  | str (s : String)
  | arr (elems : List Json)
  | obj (fields : List (String × Json))

/-- The save payload after JSON.parse, cast to Partial SaveData:
each field may be absent (undefined). -/
structure ParsedSave where
  bestScore : Option Json
  walletCoins : Option Json
  upgrades : Option (List (String × Json))

/-- The fully defaulted save produced by SaveService.load. -/
structure LoadedSave where
  bestScore : Json
  walletCoins : Json
  upgrades : List (String × Json)

/-- Property lookup in a JavaScript-object field list. -/
def lookupJson (l : List (String × Json)) (k : String) : Option Json :=
  (l.find? fun kv => kv.1 == k).map fun kv => kv.2

/-- SaveService.defaults for a list of upgrade branch ids: best score
0, wallet 0, level 0 for every branch. -/
def saveDefaults (upgradeIds : List String) : LoadedSave :=
  ⟨Json.num 0, Json.num 0, upgradeIds.map fun id => (id, Json.num 0)⟩

/-- The object spread performed by SaveService.load on the upgrades
maps: keys of the defaults come first, each overridden by the parsed
value when one exists, followed by the parsed keys that are not
defaults keys. -/
def spreadMerge (d p : List (String × Json)) : List (String × Json) :=
  (d.map fun kv => (kv.1, (lookupJson p kv.1).getD kv.2))
    ++ p.filter fun kv => (lookupJson d kv.1).isNone

/-- SaveService.load.  The raw argument models
localStorage.getItem: none when no raw string is stored, some none
when reading or JSON.parse throws (the catch branch), and
some (some parsed) for a parsed payload.  Each top-level field falls
back to its default only when it is absent (the ?? operator), and the
upgrades objects are merged by object spread. -/
def SaveService.load (upgradeIds : List String)
    (raw : Option (Option ParsedSave)) : LoadedSave :=
  let d := saveDefaults upgradeIds
  match raw with
  | none => d
  | some none => d
  | some (some parsed) =>
      { bestScore := parsed.bestScore.getD d.bestScore,
        walletCoins := parsed.walletCoins.getD d.walletCoins,
        upgrades := spreadMerge d.upgrades (parsed.upgrades.getD []) }

/-- The defense-branch effect bundle read by
Game.applyMetaUpgradesForRun (interface UpgradeEffect, shield part). -/
structure DefenseEffect where
  shieldStart : Option ℚ
  shieldRegenSec : Option ℚ
deriving DecidableEq

/-- The shield part of Game.applyMetaUpgradesForRun: capacity is the
floored shieldStart clamped to 0 or more, the count starts full, and
the regen timer starts at the clamped regen period. -/
def applyMetaShield (defense : DefenseEffect) (s : RunState) : RunState :=
  let mx : ℤ := max 0 ⌊(defense.shieldStart.getD 0)⌋
  let regen : ℚ := max 0 (defense.shieldRegenSec.getD 0)
  { s with shieldMax := mx,
           shieldCount := mx,
           shieldRegenSec := regen,
           shieldRegenTimer := regen }

/-- The per-tick part of Game.update that touches the revive timer and
the shield regeneration: the invulnerability decays toward 0, and
while regen is configured and the shield is below capacity the regen
timer counts down, granting one charge and restarting itself when it
reaches 0. -/
def updateShieldTick (s : RunState) (dt : ℚ) : RunState :=
  let s1 := { s with reviveInvulnMs := max 0 (s.reviveInvulnMs - dt * 1000) }
  if 0 < s1.shieldRegenSec ∧ s1.shieldCount < s1.shieldMax then
    let timer := s1.shieldRegenTimer - dt
    if timer ≤ 0 then
      { s1 with shieldCount := s1.shieldCount + 1,
                shieldRegenTimer := s1.shieldRegenSec }
    else
      { s1 with shieldRegenTimer := timer }
  else s1

/-- The RunState part of Game.reset: every field returns to its
pre-run value and the balance is refilled from the economy config. -/
def resetRunState (economy : EconomyConfig) : RunState :=
  ⟨0, 0, 0, 0, 0, economy.startCoins⟩

/-- The RunState values reachable through the operations the source
performs on the shield fields: the initial field values of the Game
class, Game.reset, the shield part of Game.applyMetaUpgradesForRun at
run start, the shield part of Game.update each tick, and the
obstacle-impact branch of Game.handleCollisions. -/
inductive ShieldReachable : RunState → Prop
  | boot : ShieldReachable ⟨0, 0, 0, 0, 0, 0⟩
  | reset (economy : EconomyConfig) (s : RunState) :
      ShieldReachable s → ShieldReachable (resetRunState economy)
  | start (defense : DefenseEffect) (s : RunState) :
      ShieldReachable s → ShieldReachable (applyMetaShield defense s)
  | tick (s : RunState) (dt : ℚ) :
      ShieldReachable s → ShieldReachable (updateShieldTick s dt)
  | impact (economy : EconomyConfig) (effects : List ActiveEffect)
      (obstacleDamageMult : ℚ) (s : RunState) (damage : ℚ) :
      ShieldReachable s →
      ShieldReachable (resolveObstacleImpact economy effects obstacleDamageMult s damage)

/-- Sample economy configuration used by the concrete witnesses. -/
def econ0 : EconomyConfig :=
  ⟨100, [⟨0, 1⟩, ⟨30, 2⟩, ⟨60, 4⟩], 10, 15, 1, 1 / 10, 12, 10⟩

/-- Sample permanent gate whose id is not DEBT. -/
def gatePermX : GateConfig := ⟨"X", "Gate X", "", 0, true, {}⟩

/-- Sample active permanent effect originating from gatePermX. -/
def effPermX : ActiveEffect := ⟨"X", {}, true, 0⟩

/-- Sample permanent debt gate. -/
def gateDebt : GateConfig :=
  ⟨"DEBT", "Gate of Debt", "", 0, true, { drainMultiplier := some (3 / 2) }⟩

/-- Sample active permanent effect originating from gateDebt. -/
def effPermDebt : ActiveEffect :=
  ⟨"DEBT", { drainMultiplier := some (3 / 2) }, true, 0⟩

/-- Sample temporary effect with a drain multiplier of 2. -/
def effDrain2 : ActiveEffect :=
  ⟨"MERCY", { drainMultiplier := some 2 }, false, 5⟩

/-- Sample temporary effect without a drain entry. -/
def effNoDrain : ActiveEffect :=
  ⟨"PLENTY", { pickupMultiplier := some 3 }, false, 5⟩

/-- Sample pause state: user paused manually while one platform
suspend is active. -/
def pauseSample : PauseState :=
  ⟨true, true, true, false, false, true, 1, false, false⟩

/-- Sample defense upgrade bundle used by the shield witness. -/
def defense0 : DefenseEffect := ⟨some (5 / 2), some 3⟩

/-- The reduce of Game.effectMultiplier computes the product of the
numeric entries, for any initial accumulator. -/
theorem effectMultiplier_foldl_eq (key : EffectKey) :
    ∀ (l : List ActiveEffect) (a : ℚ),
      l.foldl
          (fun acc e =>
            match e.effect.get key with
            | some v => acc * v
            | none => acc)
          a
        = a * (l.map fun e => ((e.effect.get key).getD 1)).prod := by
  intro l
  induction l with
  | nil => intro a; simp
  | cons e es ih =>
      intro a
      rw [List.foldl_cons, ih, List.map_cons, List.prod_cons]
      cases h : e.effect.get key with
      | none => simp [h, mul_assoc]
      | some v => simp [h, mul_assoc]

/-- Claim C2: for every set of active effects and every effect key,
effectMultiplier equals the product over all active effects of the
value stored for the key with absent or non-numeric entries counting
as 1; with zero active effects it is 1, and the result is invariant
under reordering of the effect list. -/
theorem effectMultiplier_prod_comm (effects effects' : List ActiveEffect)
    (key : EffectKey) (h : effects.Perm effects') :
    effectMultiplier effects key
        = (effects.map fun e => ((e.effect.get key).getD 1)).prod
      ∧ effectMultiplier ([] : List ActiveEffect) key = 1
      ∧ effectMultiplier effects key = effectMultiplier effects' key := by
  refine ⟨?_, rfl, ?_⟩
  · rw [effectMultiplier, effectMultiplier_foldl_eq, one_mul]
  · rw [effectMultiplier, effectMultiplier, effectMultiplier_foldl_eq,
      effectMultiplier_foldl_eq, one_mul, one_mul]
    exact List.Perm.prod_eq (List.Perm.map _ h)

/-- Concrete instance of effectMultiplier_prod_comm on a two-effect
stack and its transposition. -/
theorem effectMultiplier_prod_comm_witness :
    effectMultiplier [effDrain2, effNoDrain] EffectKey.drainMultiplier
        = ([effDrain2, effNoDrain].map fun e =>
            ((e.effect.get EffectKey.drainMultiplier).getD 1)).prod
      ∧ effectMultiplier ([] : List ActiveEffect) EffectKey.drainMultiplier = 1
      ∧ effectMultiplier [effDrain2, effNoDrain] EffectKey.drainMultiplier
          = effectMultiplier [effNoDrain, effDrain2] EffectKey.drainMultiplier :=
  effectMultiplier_prod_comm [effDrain2, effNoDrain] [effNoDrain, effDrain2]
    EffectKey.drainMultiplier (List.Perm.swap effNoDrain effDrain2 [])

/-- Claim C1 counterexample: a permanent gate whose id is not DEBT is
pushed even though a permanent effect with the same originating id is
already active, so the claim as stated fails at this input: the effect
list grows from 1 to 2 entries and no already-applied notice is
signalled. -/
theorem applyGate_counterexample_C1 :
    gatePermX.permanent = true
      ∧ effPermX.permanent = true
      ∧ effPermX.gateId = gatePermX.id
      ∧ (applyGate econ0 [effPermX] gatePermX).1.length = 2
      ∧ (applyGate econ0 [effPermX] gatePermX).2 = false :=
  ⟨rfl, rfl, rfl, rfl, rfl⟩

/-- Claim C1 (amended): the duplicate-permanent rejection is applied
only to the gate with id DEBT.  For a permanent gate with id DEBT and
an already-active permanent DEBT effect, applyGate is a no-op that
signals the already-applied notice; a permanent gate with any other id
is always pushed without a notice. -/
theorem applyGate_permanent_debt_dedup (economy : EconomyConfig)
    (effects : List ActiveEffect) (g : GateConfig)
    (hperm : g.permanent = true) (hid : g.id = "DEBT")
    (hex : ∃ e ∈ effects, e.permanent = true ∧ e.gateId = "DEBT") :
    applyGate economy effects g = (effects, true)
      ∧ (∀ g' : GateConfig, g'.permanent = true → g'.id ≠ "DEBT" →
          (applyGate economy effects g').1.length = effects.length + 1
            ∧ (applyGate economy effects g').2 = false) := by
  constructor
  · obtain ⟨e, he, hep, heid⟩ := hex
    rw [applyGate, if_pos]
    rw [hperm, hid]
    simp only [Bool.true_and, beq_self_eq_true, List.any_eq_true]
    exact ⟨e, he, by rw [hep, heid]; simp⟩
  · intro g' hp' hid'
    rw [applyGate, if_neg]
    · simp
    · simp only [Bool.and_eq_true, beq_iff_eq]
      intro hcontra
      exact hid' hcontra.1.2

/-- Concrete instance of applyGate_permanent_debt_dedup: a second
permanent DEBT gate is rejected while the non-debt permanent gate is
pushed. -/
theorem applyGate_permanent_debt_dedup_witness :
    applyGate econ0 [effPermDebt] gateDebt = ([effPermDebt], true)
      ∧ (∀ g' : GateConfig, g'.permanent = true → g'.id ≠ "DEBT" →
          (applyGate econ0 [effPermDebt] g').1.length = [effPermDebt].length + 1
            ∧ (applyGate econ0 [effPermDebt] g').2 = false) :=
  applyGate_permanent_debt_dedup econ0 [effPermDebt] gateDebt rfl rfl
    ⟨effPermDebt, List.mem_singleton.mpr rfl, rfl, rfl⟩

/-- Every obstacle kept by the obstacle fold of Game.handleCollisions
fails the intersection test, for any starting accumulator whose kept
list already satisfies this. -/
theorem handleObstacles_foldl_kept (boatBody : BodyCircle)
    (economy : EconomyConfig) (effects : List ActiveEffect) (m : ℚ) :
    ∀ (obstacles : List ObstacleEntity) (acc : RunState × List ObstacleEntity),
      (∀ ob ∈ acc.2, intersects boatBody ob.body = false) →
      ∀ ob ∈ (obstacles.foldl
          (fun acc ob =>
            if intersects boatBody ob.body then
              (resolveObstacleImpact economy effects m acc.1 ob.damage, acc.2)
            else
              (acc.1, acc.2 ++ [ob])) acc).2,
        intersects boatBody ob.body = false := by
  intro obstacles
  induction obstacles with
  | nil => intro acc hacc ob hob; exact hacc ob hob
  | cons o os ih =>
      intro acc hacc ob hob
      rw [List.foldl_cons] at hob
      by_cases hI : intersects boatBody o.body = true
      · refine ih _ ?_ ob hob
        simpa [hI] using hacc
      · refine ih _ ?_ ob hob
        simp only [Bool.not_eq_true] at hI
        simp only [hI, if_false, Bool.false_eq_true]
        intro x hx
        rcases List.mem_append.mp hx with hx1 | hx2
        · exact hacc x hx1
        · rw [List.mem_singleton.mp hx2]; exact hI

/-- Claim C3: while the revive invulnerability is inactive, an
obstacle impact with a positive shield count consumes exactly one
charge, resets the regen timer and leaves the balance unchanged; with
shield count 0 the balance decreases by exactly
collisionPenalty * damage * collision-penalty multiplier *
obstacleDamageMult, which is collisionPenalty * damage when both
multipliers are 1; and every impacting obstacle is removed by the
obstacle pass. -/
theorem obstacleImpact_props (economy : EconomyConfig)
    (effects : List ActiveEffect) (obstacleDamageMult : ℚ)
    (s : RunState) (damage : ℚ) (hinv : s.reviveInvulnMs ≤ 0) :
    (0 < s.shieldCount →
        (resolveObstacleImpact economy effects obstacleDamageMult s damage).shieldCount
            = s.shieldCount - 1
          ∧ (resolveObstacleImpact economy effects obstacleDamageMult s damage).shieldRegenTimer
              = s.shieldRegenSec
          ∧ (resolveObstacleImpact economy effects obstacleDamageMult s damage).coinsBalance
              = s.coinsBalance)
      ∧ (s.shieldCount = 0 →
          (resolveObstacleImpact economy effects obstacleDamageMult s damage).coinsBalance
            = s.coinsBalance
              - economy.collisionPenalty * damage
                * effectMultiplier effects EffectKey.collisionPenaltyMultiplier
                * obstacleDamageMult
            ∧ (resolveObstacleImpact economy effects obstacleDamageMult s damage).shieldCount
                = s.shieldCount)
      ∧ (s.shieldCount = 0 →
          effectMultiplier effects EffectKey.collisionPenaltyMultiplier = 1 →
          obstacleDamageMult = 1 →
          (resolveObstacleImpact economy effects obstacleDamageMult s damage).coinsBalance
            = s.coinsBalance - economy.collisionPenalty * damage)
      ∧ (∀ (boatBody : BodyCircle) (s' : RunState)
            (obstacles : List ObstacleEntity) (ob : ObstacleEntity),
          ob ∈ (handleObstacles boatBody economy effects obstacleDamageMult s' obstacles).2 →
          intersects boatBody ob.body = false) := by
  refine ⟨?_, ?_, ?_, ?_⟩
  · intro hpos
    rw [resolveObstacleImpact, if_pos hinv, if_pos hpos]
    exact ⟨rfl, rfl, rfl⟩
  · intro hzero
    rw [resolveObstacleImpact, if_pos hinv, if_neg (by omega)]
    exact ⟨rfl, rfl⟩
  · intro hzero hmul hdm
    rw [resolveObstacleImpact, if_pos hinv, if_neg (by omega)]
    simp [hmul, hdm]
  · intro boatBody s' obstacles ob hob
    refine handleObstacles_foldl_kept boatBody economy effects obstacleDamageMult
      obstacles (s', []) ?_ ob ?_
    · intro x hx; cases hx
    · exact hob

/-- Concrete instance of obstacleImpact_props: one shield charge
absorbs a hit without touching the balance. -/
theorem obstacleImpact_props_witness :
    (resolveObstacleImpact econ0 [] 1 ⟨0, 2, 1, 4, 4, 80⟩ 2).shieldCount = 1 - 1
      ∧ (resolveObstacleImpact econ0 [] 1 ⟨0, 2, 1, 4, 4, 80⟩ 2).shieldRegenTimer = 4
      ∧ (resolveObstacleImpact econ0 [] 1 ⟨0, 2, 1, 4, 4, 80⟩ 2).coinsBalance = 80 :=
  (obstacleImpact_props econ0 [] 1 ⟨0, 2, 1, 4, 4, 80⟩ 2 (by norm_num)).1 (by norm_num)

/-- Inserting a tier at or below every element of a list puts it in
front. -/
theorem insertTier_eq_cons (x : DrainTier) (l : List DrainTier)
    (h : ∀ y ∈ l, x.fromSec ≤ y.fromSec) : insertTier x l = x :: l := by
  cases l with
  | nil => rfl
  | cons y ys =>
      rw [insertTier, if_pos (h y (List.mem_cons_self y ys))]

/-- The ascending sort of Game.currentDrainRate leaves an already
ascending tier list unchanged. -/
theorem sortTiers_eq_self (l : List DrainTier)
    (h : l.Pairwise fun a b => a.fromSec ≤ b.fromSec) : sortTiers l = l := by
  induction l with
  | nil => rfl
  | cons x xs ih =>
      rw [List.pairwise_cons] at h
      rw [sortTiers, ih h.2]
      exact insertTier_eq_cons x xs h.1

/-- The tier-overwriting fold of Game.currentDrainRate returns the
rate of the last tier in list order whose threshold has been reached,
falling back to the initial accumulator when no threshold has been. -/
theorem drainFold_eq (t : ℚ) :
    ∀ (l : List DrainTier) (init : ℚ),
      l.foldl
          (fun current tier => if t ≥ tier.fromSec then tier.rate else current)
          init
        = (((l.filter fun tier => decide (t ≥ tier.fromSec)).getLast?).map
            DrainTier.rate).getD init := by
  intro l
  induction l with
  | nil => intro init; rfl
  | cons x xs ih =>
      intro init
      rw [List.foldl_cons, ih]
      by_cases hx : t ≥ x.fromSec
      · rw [if_pos hx, List.filter_cons_of_pos (by simpa using hx)]
        cases hf : xs.filter fun tier => decide (t ≥ tier.fromSec) with
        | nil => simp [hf]
        | cons y ys =>
            obtain ⟨z, hz⟩ := Option.isSome_iff_exists.mp
              (List.getLast?_isSome.mpr (List.cons_ne_nil y ys))
            rw [List.getLast?_cons_cons, hz]
            rfl
      · rw [if_neg hx, List.filter_cons_of_neg (by simpa using hx)]

/-- Claim C4: for every elapsed time and every ascending-sorted tier
list, the selected drain rate is the rate of the last tier whose
threshold is at most the elapsed time, with no interpolation; in
particular the tiers (0,1),(30,2),(60,4) select rate 2 at 45s, rate 4
at 61s and rate 1 at 0s. -/
theorem currentDrainRate_last_tier (tiers : List DrainTier) (t : ℚ)
    (hsorted : tiers.Pairwise fun a b => a.fromSec ≤ b.fromSec)
    (hexists : ∃ tier ∈ tiers, tier.fromSec ≤ t) :
    ((tiers.filter fun tier => decide (t ≥ tier.fromSec)).getLast?).map
        DrainTier.rate = some (currentDrainRate tiers t)
      ∧ currentDrainRate [⟨0, 1⟩, ⟨30, 2⟩, ⟨60, 4⟩] 45 = 2
      ∧ currentDrainRate [⟨0, 1⟩, ⟨30, 2⟩, ⟨60, 4⟩] 61 = 4
      ∧ currentDrainRate [⟨0, 1⟩, ⟨30, 2⟩, ⟨60, 4⟩] 0 = 1 := by
  refine ⟨?_, by decide, by decide, by decide⟩
  rw [currentDrainRate]
  simp only [sortTiers_eq_self tiers hsorted]
  rw [drainFold_eq]
  obtain ⟨tier, htier, hle⟩ := hexists
  have hmem : tier ∈ tiers.filter fun tier => decide (t ≥ tier.fromSec) :=
    List.mem_filter.mpr ⟨htier, by simpa using hle⟩
  have hne : (tiers.filter fun tier => decide (t ≥ tier.fromSec)) ≠ [] := by
    intro hemp
    rw [hemp] at hmem
    cases hmem
  obtain ⟨z, hz⟩ := Option.isSome_iff_exists.mp
    (List.getLast?_isSome.mpr hne)
  rw [hz]
  rfl

/-- Concrete instance of currentDrainRate_last_tier on the tier list
of the claim at elapsed time 45. -/
theorem currentDrainRate_last_tier_witness :
    (([(⟨0, 1⟩ : DrainTier), ⟨30, 2⟩, ⟨60, 4⟩].filter
        fun tier => decide ((45 : ℚ) ≥ tier.fromSec)).getLast?).map
      DrainTier.rate = some (currentDrainRate [⟨0, 1⟩, ⟨30, 2⟩, ⟨60, 4⟩] 45) :=
  (currentDrainRate_last_tier [⟨0, 1⟩, ⟨30, 2⟩, ⟨60, 4⟩] 45
    (by norm_num [List.pairwise_cons])
    ⟨⟨0, 1⟩, by norm_num, by norm_num⟩).1

/-- Claim C5: for an unchosen gate pair within the vertical tolerance,
the two zones are disjoint and a boat inside one zone gets that zone's
option; a boat inside neither zone gets the option whose zone center
is nearer, with the left option on an exact tie; the resolved pair is
marked chosen, and a chosen pair is never re-evaluated. -/
theorem resolveGatePair_choice (px py : ℚ) (g : GatePair)
    (hch : g.chosen = false) (hy : |g.y - py| ≤ gateHeight) :
    ¬(inLeftRect px g = true ∧ inRightRect px g = true)
      ∧ (inLeftRect px g = true →
          resolveGatePair px py g = ({ g with chosen := true }, some g.left))
      ∧ (inRightRect px g = true →
          resolveGatePair px py g = ({ g with chosen := true }, some g.right))
      ∧ (inLeftRect px g = false → inRightRect px g = false →
          resolveGatePair px py g = ({ g with chosen := true },
            some (if |px - (gateLeftX g + g.width / 2)|
                      ≤ |px - (gateRightX g + g.width / 2)| then g.left
                  else g.right)))
      ∧ (inLeftRect px g = false → inRightRect px g = false →
          |px - (gateLeftX g + g.width / 2)| = |px - (gateRightX g + g.width / 2)| →
          (resolveGatePair px py g).2 = some g.left)
      ∧ (resolveGatePair px py g).1.chosen = true
      ∧ (∀ (qx qy : ℚ) (g' : GatePair), g'.chosen = true →
          resolveGatePair qx qy g' = (g', none)) := by
  have hnotlt : ¬gateHeight < |g.y - py| := not_lt.mpr hy
  have hchProp : ¬g.chosen = true := by rw [hch]; exact Bool.false_ne_true
  have hdisj : ¬(inLeftRect px g = true ∧ inRightRect px g = true) := by
    rintro ⟨hl, hr⟩
    rw [inLeftRect, Bool.and_eq_true, decide_eq_true_iff, decide_eq_true_iff] at hl
    rw [inRightRect, Bool.and_eq_true, decide_eq_true_iff, decide_eq_true_iff] at hr
    rw [gateLeftX] at hl
    rw [gateRightX] at hr
    rw [laneWidth, gateGap] at hl hr
    linarith [hl.2, hr.1]
  refine ⟨hdisj, ?_, ?_, ?_, ?_, ?_, ?_⟩
  · intro hl
    rw [resolveGatePair, if_neg hchProp, if_neg hnotlt, if_pos hl]
  · intro hr
    have hl : ¬inLeftRect px g = true := fun hl => hdisj ⟨hl, hr⟩
    rw [resolveGatePair, if_neg hchProp, if_neg hnotlt, if_neg hl, if_pos hr]
  · intro hl hr
    rw [resolveGatePair, if_neg hchProp, if_neg hnotlt,
      if_neg (by rw [hl]; exact Bool.false_ne_true),
      if_neg (by rw [hr]; exact Bool.false_ne_true)]
  · intro hl hr heq
    rw [resolveGatePair, if_neg hchProp, if_neg hnotlt,
      if_neg (by rw [hl]; exact Bool.false_ne_true),
      if_neg (by rw [hr]; exact Bool.false_ne_true)]
    simp only [heq, le_refl, if_pos]
  · rw [resolveGatePair, if_neg hchProp, if_neg hnotlt]
    by_cases hl : inLeftRect px g = true
    · rw [if_pos hl]
    · rw [if_neg hl]
      by_cases hr : inRightRect px g = true
      · rw [if_pos hr]
      · rw [if_neg hr]
  · intro qx qy g' hch'
    rw [resolveGatePair, if_pos hch']

/-- Concrete instance of resolveGatePair_choice: a boat exactly midway
between the two zone centers of a width-170 gate pair receives the
left option. -/
theorem resolveGatePair_choice_witness :
    (resolveGatePair 450 100 ⟨100, gateDebt, gatePermX, 170, false⟩).2
      = some gateDebt :=
  (resolveGatePair_choice 450 100 ⟨100, gateDebt, gatePermX, 170, false⟩
    rfl (by rw [gateHeight]; norm_num)).2.2.2.2.1
    (by rw [inLeftRect]; simp [gateLeftX, laneWidth, gateGap]; norm_num)
    (by rw [inRightRect]; simp [gateRightX, laneWidth, gateGap]; norm_num)
    (by rw [gateLeftX, gateRightX, laneWidth, gateGap]; norm_num)

/-- Claim C6: a first successful application of the game-over doubler
sets the score multiplier to 2, raises the persisted best score to the
doubled base score when that exceeds it, and credits exactly the base
session earnings to the wallet; every later attempt, rewarded or not,
is a no-op. -/
theorem rewardX2_props (s : GameOverState)
    (hgo : s.gameOver = true) (hm : s.gameOverScoreMultiplier = 1)
    (he : 0 ≤ s.sessionEarningsBase) :
    (rewardX2 true s).gameOverScoreMultiplier = 2
      ∧ (rewardX2 true s).bestScore = max s.bestScore (s.gameOverBaseScore * 2)
      ∧ (rewardX2 true s).walletCoins = s.walletCoins + s.sessionEarningsBase
      ∧ (∀ r : Bool, rewardX2 r (rewardX2 true s) = rewardX2 true s) := by
  have hguard : (!s.gameOver || (s.gameOverScoreMultiplier == 2)) = false := by
    rw [hgo, hm]
    rfl
  have hmain : rewardX2 true s
      = (let s1 := { s with gameOverScoreMultiplier := 2 }
         let boostedScore := s1.gameOverBaseScore * s1.gameOverScoreMultiplier
         let s2 :=
           if s1.bestScore < boostedScore then { s1 with bestScore := boostedScore }
           else s1
         if 0 < s2.sessionEarningsBase then
           { s2 with walletCoins := s2.walletCoins + s2.sessionEarningsBase }
         else s2) := by
    rw [rewardX2, hguard]
    rfl
  refine ⟨?_, ?_, ?_, ?_⟩
  · rw [hmain]
    by_cases hb : s.bestScore < s.gameOverBaseScore * 2
    · simp only [hb, if_pos]
      by_cases hp : 0 < s.sessionEarningsBase <;> simp [hp]
    · simp only [hb, if_neg]
      by_cases hp : 0 < s.sessionEarningsBase <;> simp [hp, hb]
  · rw [hmain]
    by_cases hb : s.bestScore < s.gameOverBaseScore * 2
    · have : max s.bestScore (s.gameOverBaseScore * 2) = s.gameOverBaseScore * 2 :=
        max_eq_right hb.le
      by_cases hp : 0 < s.sessionEarningsBase <;> simp [hp, hb, this]
    · have : max s.bestScore (s.gameOverBaseScore * 2) = s.bestScore :=
        max_eq_left (not_lt.mp hb)
      by_cases hp : 0 < s.sessionEarningsBase <;> simp [hp, hb, this]
  · rw [hmain]
    by_cases hp : 0 < s.sessionEarningsBase
    · by_cases hb : s.bestScore < s.gameOverBaseScore * 2 <;> simp [hp, hb]
    · have hzero : s.sessionEarningsBase = 0 := le_antisymm (not_lt.mp hp) he
      by_cases hb : s.bestScore < s.gameOverBaseScore * 2 <;>
        simp [hp, hb, hzero]
  · intro r
    have hmult2 : (rewardX2 true s).gameOverScoreMultiplier = 2 := by
      rw [hmain]
      by_cases hb : s.bestScore < s.gameOverBaseScore * 2 <;>
        by_cases hp : 0 < s.sessionEarningsBase <;> simp [hp, hb]
    rw [rewardX2, if_pos]
    rw [hmult2]
    simp

/-- Concrete instance of rewardX2_props at base score 340 and session
earnings 12: the doubled best score is at least 680, the wallet grows
by exactly 12, and a second rewarded attempt changes nothing. -/
theorem rewardX2_props_witness :
    (680 : ℤ) ≤ (rewardX2 true ⟨true, 340, 1, 12, 500, 37⟩).bestScore
      ∧ (rewardX2 true ⟨true, 340, 1, 12, 500, 37⟩).walletCoins = 37 + 12
      ∧ rewardX2 true (rewardX2 true ⟨true, 340, 1, 12, 500, 37⟩)
          = rewardX2 true ⟨true, 340, 1, 12, 500, 37⟩ := by
  obtain ⟨h1, h2, h3, h4⟩ :=
    rewardX2_props ⟨true, 340, 1, 12, 500, 37⟩ rfl rfl (by norm_num)
  refine ⟨?_, h3, h4 true⟩
  rw [h2]
  norm_num

/-- Claim C7: under the fireBribe preconditions, a shot that is free
only because of the per-shot random roll leaves the periodic
free-shot timer state untouched while still firing a projectile, and
a shot taken while the periodic timer is ready clears the ready flag
and restarts the timer at its configured period. -/
theorem fireBribe_periodic_timer (economy : EconomyConfig) (s : BribeState)
    (hp : s.paused = false) (hg : s.gameOver = false) (hr : s.runActive = true)
    (hc : s.bribeCooldownLeftSec ≤ 0) :
    (∀ roll : Bool, s.freeBribeReady = false →
        (fireBribe economy roll s).freeBribeReady = s.freeBribeReady
          ∧ (fireBribe economy roll s).freeBribeTimerSec = s.freeBribeTimerSec)
      ∧ (s.freeBribeReady = false →
          (fireBribe economy true s).projectiles.length
            = s.projectiles.length + 1)
      ∧ (∀ roll : Bool, s.freeBribeReady = true →
          (fireBribe economy roll s).freeBribeReady = false
            ∧ (fireBribe economy roll s).freeBribeTimerSec = s.freeBribeEverySec) := by
  have hguard : (s.paused || s.gameOver || !s.runActive) = false := by
    rw [hp, hg, hr]
    rfl
  have hcool : ¬0 < s.bribeCooldownLeftSec := not_lt.mpr hc
  refine ⟨?_, ?_, ?_⟩
  · intro roll hready
    rw [fireBribe, hguard]
    simp only [Bool.false_eq_true, if_false, if_neg hcool]
    rw [hready]
    cases roll
    · by_cases haff : s.coinsBalance < economy.bribeShotCost <;> simp [haff, hready]
    · simp [hready]
  · intro hready
    rw [fireBribe, hguard]
    simp only [Bool.false_eq_true, if_false, if_neg hcool]
    rw [hready]
    simp [hready]
  · intro roll hready
    rw [fireBribe, hguard]
    simp only [Bool.false_eq_true, if_false, if_neg hcool]
    rw [hready]
    cases roll <;> simp

/-- Concrete instance of fireBribe_periodic_timer: a random free shot
with the periodic timer not ready leaves the timer at 7 seconds and
the ready flag off. -/
theorem fireBribe_periodic_timer_witness :
    (fireBribe econ0 true ⟨false, false, true, 0, 50, false, 7, 9, 1, 450, 450, []⟩).freeBribeReady
        = (⟨false, false, true, 0, 50, false, 7, 9, 1, 450, 450, []⟩ : BribeState).freeBribeReady
      ∧ (fireBribe econ0 true ⟨false, false, true, 0, 50, false, 7, 9, 1, 450, 450, []⟩).freeBribeTimerSec
          = (⟨false, false, true, 0, 50, false, 7, 9, 1, 450, 450, []⟩ : BribeState).freeBribeTimerSec :=
  (fireBribe_periodic_timer econ0 ⟨false, false, true, 0, 50, false, 7, 9, 1, 450, 450, []⟩
    rfl rfl rfl le_rfl).1 true rfl

/-- Property lookup over a list of pairs built from a key list finds
the entry of any listed key. -/
theorem find_map_pair (ids : List String) (g : String → Json) (k : String)
    (hk : k ∈ ids) :
    ((ids.map fun id => (id, g id)).find? fun kv => kv.1 == k)
      = some (k, g k) := by
  induction ids with
  | nil => cases hk
  | cons i is ih =>
      rw [List.map_cons]
      by_cases h : i = k
      · subst h
        exact List.find?_cons_of_pos _ (by simp)
      · rw [List.find?_cons_of_neg _ (by simp [h])]
        refine ih ?_
        rcases List.mem_cons.mp hk with h1 | h1
        · exact absurd h1.symm h
        · exact h1

/-- The object spread of SaveService.load, looked up at a defaulted
upgrade id, yields the parsed level when one is present and the
default level 0 otherwise. -/
theorem lookupJson_spreadMerge_defaults (ids : List String)
    (pu : List (String × Json)) (k : String) (hk : k ∈ ids) :
    lookupJson (spreadMerge (saveDefaults ids).upgrades pu) k
      = some ((lookupJson pu k).getD (Json.num 0)) := by
  rw [lookupJson, spreadMerge, List.find?_append]
  have hmap : ((saveDefaults ids).upgrades.map
      fun kv => (kv.1, (lookupJson pu kv.1).getD kv.2))
        = ids.map fun id => (id, (lookupJson pu id).getD (Json.num 0)) := by
    rw [saveDefaults, List.map_map]
    rfl
  rw [hmap,
    find_map_pair ids (fun id => (lookupJson pu id).getD (Json.num 0)) k hk]
  rfl

/-- Claim C8 counterexample: a bestScore field that is present but
invalid (a string) is kept as-is by SaveService.load instead of
falling back to the default 0, so the claim as stated fails at this
payload. -/
theorem load_counterexample_C8 :
    (SaveService.load ["defense"]
        (some (some ⟨some (Json.str "bad"), none, none⟩))).bestScore
        = Json.str "bad"
      ∧ (saveDefaults ["defense"]).bestScore = Json.num 0
      ∧ Json.str "bad" ≠ Json.num 0 :=
  ⟨rfl, rfl, fun h => Json.noConfusion h⟩

/-- Claim C8 (amended): SaveService.load never throws (it is total,
an unreadable or unparseable payload yielding full defaults), and it
recovers field-by-field from absent fields only: a missing bestScore
or walletCoins falls back to its default 0 while a present value,
valid or not, is preserved unchanged, and every configured upgrade id
maps to the parsed level when the payload has one and to the default
level 0 otherwise. -/
theorem load_fieldwise (ids : List String) (p : ParsedSave) (k : String)
    (hk : k ∈ ids) :
    SaveService.load ids none = saveDefaults ids
      ∧ SaveService.load ids (some none) = saveDefaults ids
      ∧ (p.bestScore = none →
          (SaveService.load ids (some (some p))).bestScore = Json.num 0)
      ∧ (∀ v, p.bestScore = some v →
          (SaveService.load ids (some (some p))).bestScore = v)
      ∧ (p.walletCoins = none →
          (SaveService.load ids (some (some p))).walletCoins = Json.num 0)
      ∧ (∀ v, p.walletCoins = some v →
          (SaveService.load ids (some (some p))).walletCoins = v)
      ∧ lookupJson (SaveService.load ids (some (some p))).upgrades k
          = some ((lookupJson (p.upgrades.getD []) k).getD (Json.num 0)) := by
  refine ⟨rfl, rfl, ?_, ?_, ?_, ?_, ?_⟩
  · intro h
    show p.bestScore.getD (saveDefaults ids).bestScore = Json.num 0
    rw [h]
    rfl
  · intro v h
    show p.bestScore.getD (saveDefaults ids).bestScore = v
    rw [h]
    rfl
  · intro h
    show p.walletCoins.getD (saveDefaults ids).walletCoins = Json.num 0
    rw [h]
    rfl
  · intro v h
    show p.walletCoins.getD (saveDefaults ids).walletCoins = v
    rw [h]
    rfl
  · show lookupJson (spreadMerge (saveDefaults ids).upgrades (p.upgrades.getD [])) k
      = some ((lookupJson (p.upgrades.getD []) k).getD (Json.num 0))
    exact lookupJson_spreadMerge_defaults ids (p.upgrades.getD []) k hk

/-- Concrete instance of load_fieldwise: a payload missing walletCoins
gets the default wallet while its parsed farm level is preserved. -/
theorem load_fieldwise_witness :
    (SaveService.load ["defense", "farm", "skills"]
        (some (some ⟨some (Json.num 210), none,
          some [("farm", Json.num 2)]⟩))).walletCoins = Json.num 0
      ∧ lookupJson (SaveService.load ["defense", "farm", "skills"]
          (some (some ⟨some (Json.num 210), none,
            some [("farm", Json.num 2)]⟩))).upgrades "farm"
        = some ((lookupJson [("farm", Json.num 2)] "farm").getD (Json.num 0)) := by
  obtain ⟨h1, h2, h3, h4, h5, h6, h7⟩ :=
    load_fieldwise ["defense", "farm", "skills"]
      ⟨some (Json.num 210), none, some [("farm", Json.num 2)]⟩ "farm"
      (by simp)
  exact ⟨h5 rfl, h7⟩

/-- Claim C9: across any interleaving of user-pause and platform
suspend/resume events (the properties hold at every state), a platform
resume never un-pauses while the manual pause is active; a resume that
leaves the suspend counter positive keeps the paused flag true; and a
suspend arriving at positive depth does not re-take the pre-pause
paused/muted snapshot, which is taken only at depth 0. -/
theorem platformPauseResume_props :
    (∀ s : PauseState, s.manualPaused = true → s.paused = true →
        (platformResume s).paused = true)
      ∧ (∀ s : PauseState, s.paused = true →
          0 < (platformResume s).platformPauseDepth →
          (platformResume s).paused = true)
      ∧ (∀ s : PauseState, s.platformPauseDepth ≠ 0 →
          (platformPause s).wasPausedBeforePlatformPause
              = s.wasPausedBeforePlatformPause
            ∧ (platformPause s).wasMutedBeforePlatformPause
              = s.wasMutedBeforePlatformPause
            ∧ (platformPause s).paused = true
            ∧ (platformPause s).platformPauseDepth = s.platformPauseDepth + 1)
      ∧ (∀ s : PauseState, s.platformPauseDepth = 0 →
          (platformPause s).wasPausedBeforePlatformPause = s.paused
            ∧ (platformPause s).wasMutedBeforePlatformPause = s.muted
            ∧ (platformPause s).paused = true) := by
  refine ⟨?_, ?_, ?_, ?_⟩
  · intro s hman hpaused
    rw [platformResume]
    by_cases hd : s.platformPauseDepth ≤ 0
    · rw [if_pos hd]
      exact hpaused
    · rw [if_neg hd]
      by_cases hd1 : 0 < s.platformPauseDepth - 1
      · simp only [if_pos hd1]
        exact hpaused
      · simp only [if_neg hd1, hman]
        simp
  · intro s hpaused hdepth
    rw [platformResume] at hdepth ⊢
    by_cases hd : s.platformPauseDepth ≤ 0
    · rw [if_pos hd]
      exact hpaused
    · rw [if_neg hd]
      rw [if_neg hd] at hdepth
      by_cases hd1 : 0 < s.platformPauseDepth - 1
      · simp only [if_pos hd1]
        exact hpaused
      · simp only [if_neg hd1] at hdepth
        simp at hdepth
        omega
  · intro s hd
    have : (s.platformPauseDepth == 0) = false := by
      simp [hd]
    rw [platformPause, this]
    simp
  · intro s hd
    have : (s.platformPauseDepth == 0) = true := by
      simp [hd]
    rw [platformPause, this]
    simp

/-- Concrete instance of platformPauseResume_props: with a manual
pause active and one platform suspend pending, a platform resume
leaves the game paused. -/
theorem platformPauseResume_props_witness :
    (platformResume pauseSample).paused = true :=
  platformPauseResume_props.1 pauseSample rfl rfl

/-- Claim C10: every run state reachable through boot, reset, run
start, per-tick shield regeneration and obstacle impacts keeps the
shield count between 0 and the shield capacity; regeneration changes
the count only by granting a single charge while strictly below
capacity, and an impact changes it only by consuming a single charge
while strictly positive. -/
theorem shield_invariant (s : RunState) (h : ShieldReachable s) :
    (0 ≤ s.shieldCount ∧ s.shieldCount ≤ s.shieldMax)
      ∧ (∀ (s' : RunState) (dt : ℚ),
          (updateShieldTick s' dt).shieldCount ≠ s'.shieldCount →
            s'.shieldCount < s'.shieldMax
              ∧ (updateShieldTick s' dt).shieldCount = s'.shieldCount + 1)
      ∧ (∀ (economy : EconomyConfig) (effects : List ActiveEffect)
            (m : ℚ) (s' : RunState) (damage : ℚ),
          (resolveObstacleImpact economy effects m s' damage).shieldCount
              ≠ s'.shieldCount →
            0 < s'.shieldCount
              ∧ (resolveObstacleImpact economy effects m s' damage).shieldCount
                  = s'.shieldCount - 1) := by
  have htick : ∀ (s' : RunState) (dt : ℚ),
      (updateShieldTick s' dt).shieldCount ≠ s'.shieldCount →
        s'.shieldCount < s'.shieldMax
          ∧ (updateShieldTick s' dt).shieldCount = s'.shieldCount + 1 := by
    intro s' dt hne
    rw [updateShieldTick] at hne ⊢
    by_cases hcond : 0 < s'.shieldRegenSec ∧ s'.shieldCount < s'.shieldMax
    · simp only [if_pos hcond] at hne ⊢
      by_cases htimer : s'.shieldRegenTimer - dt ≤ 0
      · simp only [if_pos htimer] at hne ⊢
        exact ⟨hcond.2, trivial⟩
      · simp only [if_neg htimer] at hne
        exact absurd rfl hne
    · simp only [if_neg hcond] at hne
      exact absurd rfl hne
  have himpact : ∀ (economy : EconomyConfig) (effects : List ActiveEffect)
      (m : ℚ) (s' : RunState) (damage : ℚ),
      (resolveObstacleImpact economy effects m s' damage).shieldCount
          ≠ s'.shieldCount →
        0 < s'.shieldCount
          ∧ (resolveObstacleImpact economy effects m s' damage).shieldCount
              = s'.shieldCount - 1 := by
    intro economy effects m s' damage hne
    rw [resolveObstacleImpact] at hne ⊢
    by_cases hinv : s'.reviveInvulnMs ≤ 0
    · simp only [if_pos hinv] at hne ⊢
      by_cases hpos : 0 < s'.shieldCount
      · simp only [if_pos hpos] at hne ⊢
        exact ⟨hpos, trivial⟩
      · simp only [if_neg hpos] at hne
        exact absurd rfl hne
    · simp only [if_neg hinv] at hne
      exact absurd rfl hne
  refine ⟨?_, htick, himpact⟩
  induction h with
  | boot => exact ⟨le_refl 0, le_refl 0⟩
  | reset economy s hs ih => exact ⟨le_refl 0, le_refl 0⟩
  | start defense s hs ih =>
      constructor
      · exact le_max_left 0 _
      · exact le_refl _
  | tick s dt hs ih =>
      have hmax : (updateShieldTick s dt).shieldMax = s.shieldMax := by
        rw [updateShieldTick]
        by_cases hcond : 0 < s.shieldRegenSec ∧ s.shieldCount < s.shieldMax
        · simp only [if_pos hcond]
          by_cases htimer : s.shieldRegenTimer - dt ≤ 0 <;> simp [htimer]
        · simp only [if_neg hcond]
      by_cases hne : (updateShieldTick s dt).shieldCount = s.shieldCount
      · rw [hne, hmax]
        exact ih
      · obtain ⟨hlt, heq⟩ := htick s dt hne
        rw [heq, hmax]
        omega
  | impact economy effects m s damage hs ih =>
      by_cases hne : (resolveObstacleImpact economy effects m s damage).shieldCount
          = s.shieldCount
      · have hmax : (resolveObstacleImpact economy effects m s damage).shieldMax
            = s.shieldMax := by
          rw [resolveObstacleImpact]
          by_cases hinv : s.reviveInvulnMs ≤ 0
          · simp only [if_pos hinv]
            by_cases hpos : 0 < s.shieldCount <;> simp [hpos]
          · simp only [if_neg hinv]
        rw [hne, hmax]
        exact ih
      · obtain ⟨hpos, heq⟩ := himpact economy effects m s damage hne
        have hmax : (resolveObstacleImpact economy effects m s damage).shieldMax
            = s.shieldMax := by
          rw [resolveObstacleImpact]
          by_cases hinv : s.reviveInvulnMs ≤ 0
          · simp only [if_pos hinv]
            by_cases hp : 0 < s.shieldCount <;> simp [hp]
          · simp only [if_neg hinv]
        rw [heq, hmax]
        omega

/-- Concrete instance of shield_invariant at the state reached by a
reset followed by a run start with shieldStart 5/2: the shield count
2 lies between 0 and the capacity 2. -/
theorem shield_invariant_witness :
    0 ≤ (applyMetaShield defense0 (resetRunState econ0)).shieldCount
      ∧ (applyMetaShield defense0 (resetRunState econ0)).shieldCount
          ≤ (applyMetaShield defense0 (resetRunState econ0)).shieldMax :=
  (shield_invariant (applyMetaShield defense0 (resetRunState econ0))
    (ShieldReachable.start defense0 (resetRunState econ0)
      (ShieldReachable.reset econ0 ⟨0, 0, 0, 0, 0, 0⟩ ShieldReachable.boot))).1
